import Mathlib

/-!
# cssSelectorBuilder and the promise tasks

A shallow embedding of `cssSelectorBuilder` from `src/05-objects-tasks.js`, and of
`willYouMarryMe`, `myPromiseAll` and `chainPromises` from `src/06-promises-tasks.js`
(section "Promise tasks").

A selector object is represented by the two properties that are visible on it
through the prototype chain: `selector` (a string) and `order` (a number, or
`undefined` when neither the object nor its prototype carries the property).
A method that may `throw new Error(msg)` returns `Except String _`, the string
being the message of the thrown error.

The section "Object store" gives the same methods over a store of objects with
own properties and references, which is where the statements about objects
being left unchanged by a call are made; `Store.outcome_call` relates the two.
-/

/-- Properties visible on a selector object: `selector` and `order`
(`none` stands for `undefined`). -/
structure Builder where
  selector : String
  order : Option Nat
deriving DecidableEq, Repr

/-- Message of the error thrown by the first check of `error`. -/
def DuplicateSingletonPart : String :=
  "Element, id and pseudo-element should not occur more then one time inside the selector"

/-- Message of the error thrown by the second check of `error`. -/
def OutOfOrderPart : String :=
  "Selector parts should be arranged in the following order: element, id, class, attribute, pseudo-class, pseudo-element"

/-- Data of the object literal `cssSelectorBuilder`: `selector: ''`, no `order` property. -/
def cssSelectorBuilder : Builder :=
  { selector := "", order := none }

/-- Array method `xs.indexOf(x)` on an array of numbers: first index of `x`, or `-1`. -/
def jsIndexOf (xs : List Nat) (x : Nat) : Int :=
  match xs.indexOf? x with
  | some i => (i : Int)
  | none => -1

/-- Strict equality `x === y` where `x` is a number and `y` is a number or `undefined`. -/
def jsStrictEq (x : Nat) (y : Option Nat) : Bool :=
  match y with
  | some c => x == c
  | none => false

/-- Comparison `x < y` where `x` is a number and `y` is a number or `undefined`
(`undefined` converts to `NaN`, and every comparison with `NaN` is false). -/
def jsLt (x : Nat) (y : Option Nat) : Bool :=
  match y with
  | some c => decide (x < c)
  | none => false

/-- Method `error(order)`: two guarded `throw`s, in the order of the source. -/
def cssSelectorBuilder.error (this : Builder) (order : Nat) : Except String Unit :=
  if jsStrictEq order this.order && jsIndexOf [1, 2, 6] order != -1 then
    Except.error DuplicateSingletonPart
  else if jsLt order this.order then
    Except.error OutOfOrderPart
  else
    Except.ok ()

/-- Method `element(value)`. -/
def cssSelectorBuilder.element (this : Builder) (value : String) : Except String Builder :=
  let obj := cssSelectorBuilder
  let obj := { obj with selector := obj.selector ++ (this.selector ++ value) }
  let obj := { obj with order := some 1 }
  (cssSelectorBuilder.error this 1).bind fun _ => Except.ok obj

/-- Method `id(value)`. -/
def cssSelectorBuilder.id (this : Builder) (value : String) : Except String Builder :=
  let obj := cssSelectorBuilder
  let obj := { obj with selector := obj.selector ++ (this.selector ++ "#" ++ value) }
  let obj := { obj with order := some 2 }
  (cssSelectorBuilder.error this 2).bind fun _ => Except.ok obj

/-- Method `class(value)`. -/
def cssSelectorBuilder.«class» (this : Builder) (value : String) : Except String Builder :=
  let obj := cssSelectorBuilder
  let obj := { obj with selector := obj.selector ++ (this.selector ++ "." ++ value) }
  let obj := { obj with order := some 3 }
  (cssSelectorBuilder.error this 3).bind fun _ => Except.ok obj

/-- Method `attr(value)`. -/
def cssSelectorBuilder.attr (this : Builder) (value : String) : Except String Builder :=
  let obj := cssSelectorBuilder
  let obj := { obj with selector := obj.selector ++ (this.selector ++ "[" ++ value ++ "]") }
  let obj := { obj with order := some 4 }
  (cssSelectorBuilder.error this 4).bind fun _ => Except.ok obj

/-- Method `pseudoClass(value)`. -/
def cssSelectorBuilder.pseudoClass (this : Builder) (value : String) : Except String Builder :=
  let obj := cssSelectorBuilder
  let obj := { obj with selector := obj.selector ++ (this.selector ++ ":" ++ value) }
  let obj := { obj with order := some 5 }
  (cssSelectorBuilder.error this 5).bind fun _ => Except.ok obj

/-- Method `pseudoElement(value)`. -/
def cssSelectorBuilder.pseudoElement (this : Builder) (value : String) : Except String Builder :=
  let obj := cssSelectorBuilder
  let obj := { obj with selector := obj.selector ++ (this.selector ++ "::" ++ value) }
  let obj := { obj with order := some 6 }
  (cssSelectorBuilder.error this 6).bind fun _ => Except.ok obj

/-- Method `stringify()`. -/
def cssSelectorBuilder.stringify (this : Builder) : String :=
  this.selector

/-- Method `combine(selector1, combinator, selector2)`; no `order` is assigned to the result. -/
def cssSelectorBuilder.combine (selector1 : Builder) (combinator : String) (selector2 : Builder) :
    Builder :=
  let obj := cssSelectorBuilder
  { obj with
    selector := obj.selector ++
      (cssSelectorBuilder.stringify selector1 ++ " " ++ combinator ++ " " ++
        cssSelectorBuilder.stringify selector2) }

/-- The six categories of selector parts, in the order of their ordinals. -/
inductive Category where
  | Element
  | Id
  | Class
  | Attribute
  | PseudoClass
  | PseudoElement
deriving DecidableEq, Repr

/-- Ordinal of a category: the number its method passes to `error` and stores in `order`. -/
def Category.ordinal : Category → Nat
  | .Element => 1
  | .Id => 2
  | .Class => 3
  | .Attribute => 4
  | .PseudoClass => 5
  | .PseudoElement => 6

/-- Text that a part of the given category contributes to the selector. -/
def Category.fragment : Category → String → String
  | .Element, v => v
  | .Id, v => "#" ++ v
  | .Class, v => "." ++ v
  | .Attribute, v => "[" ++ v ++ "]"
  | .PseudoClass, v => ":" ++ v
  | .PseudoElement, v => "::" ++ v

/-- Construction call of the given category: dispatch to the method of the source. -/
def Category.call : Category → Builder → String → Except String Builder
  | .Element => cssSelectorBuilder.element
  | .Id => cssSelectorBuilder.id
  | .Class => cssSelectorBuilder.«class»
  | .Attribute => cssSelectorBuilder.attr
  | .PseudoClass => cssSelectorBuilder.pseudoClass
  | .PseudoElement => cssSelectorBuilder.pseudoElement

/-- Chain of construction calls applied left to right; it stops at the first call that throws. -/
def applyCalls (b : Builder) : List (Category × String) → Except String Builder
  | [] => Except.ok b
  | (k, v) :: rest => (k.call b v).bind fun b1 => applyCalls b1 rest

/-- Concatenation, in call order, of the fragments of a list of calls. -/
def concatFragments : List (Category × String) → String
  | [] => ""
  | (k, v) :: rest => k.fragment v ++ concatFragments rest

/-- Sequence of category ordinals of a list of calls. -/
def ordinals (calls : List (Category × String)) : List Nat :=
  calls.map fun c => c.1.ordinal

/-- Sequence of categories of a list of calls. -/
def categories (calls : List (Category × String)) : List Category :=
  calls.map fun c => c.1

/-- Highest category ordinal among a list of calls (`0` for the empty list). -/
def highestOrdinal (calls : List (Category × String)) : Nat :=
  (ordinals calls).foldr max 0

instance instDecidableEqExcept {ε α : Type} [DecidableEq ε] [DecidableEq α] :
    DecidableEq (Except ε α)
  | .ok a, .ok b => if h : a = b then isTrue (by rw [h]) else isFalse (by simpa using h)
  | .error a, .error b => if h : a = b then isTrue (by rw [h]) else isFalse (by simpa using h)
  | .ok _, .error _ => isFalse (by simp)
  | .error _, .ok _ => isFalse (by simp)

/-- Validator with the two checks of `error` in the opposite order: the ordering check
(`order < this.order`) first, the duplicate-singleton check second. It is not in the source;
it is the variant that the implemented `cssSelectorBuilder.error` is compared with. -/
def errorOrderCheckFirst (this : Builder) (order : Nat) : Except String Unit :=
  if jsLt order this.order then
    Except.error OutOfOrderPart
  else if jsStrictEq order this.order && jsIndexOf [1, 2, 6] order != -1 then
    Except.error DuplicateSingletonPart
  else
    Except.ok ()

/-! ## Object store

The same methods over an explicit store of objects, where a method call takes and returns
references, so that it is visible which objects a call writes to. -/

/-- Own properties of one object; `none` means that the object itself does not have the
property. -/
structure JSObject where
  selector : Option String
  order : Option Nat
deriving DecidableEq, Repr

/-- Reference to an object: the object literal `cssSelectorBuilder` itself, or the `i`-th
object made by `Object.create(cssSelectorBuilder)`. -/
inductive Ref where
  | facade
  | created (i : Nat)
deriving DecidableEq, Repr

/-- Store: the object `cssSelectorBuilder` and the objects created from it, in creation order;
every created object has `cssSelectorBuilder` as its prototype. -/
structure Store where
  facade : JSObject
  created : List JSObject
deriving DecidableEq, Repr

/-- Store in which only the object literal exists, as written in the source. -/
def Store.initial : Store :=
  { facade := { selector := some "", order := none }, created := [] }

/-- Own properties of the object behind a reference, if it exists in the store. -/
def Store.own (s : Store) : Ref → Option JSObject
  | .facade => some s.facade
  | .created i => s.created[i]?

/-- Property read `r.selector`: the own property, else the one of the prototype; `none` is
`undefined`. -/
def Store.readSelector (s : Store) (r : Ref) : Option String :=
  match (s.own r).bind (fun o => o.selector) with
  | some t => some t
  | none => s.facade.selector

/-- Property read `r.order`: the own property, else the one of the prototype; `none` is
`undefined`. -/
def Store.readOrder (s : Store) (r : Ref) : Option Nat :=
  match (s.own r).bind (fun o => o.order) with
  | some n => some n
  | none => s.facade.order

/-- Property write `r.selector = t`: it creates or replaces the own property of `r`. -/
def Store.writeSelector (s : Store) (r : Ref) (t : String) : Store :=
  match r with
  | .facade => { s with facade := { s.facade with selector := some t } }
  | .created i =>
    match s.created[i]? with
    | some o => { s with created := s.created.set i { o with selector := some t } }
    | none => s

/-- Property write `r.order = n`: it creates or replaces the own property of `r`. -/
def Store.writeOrder (s : Store) (r : Ref) (n : Nat) : Store :=
  match r with
  | .facade => { s with facade := { s.facade with order := some n } }
  | .created i =>
    match s.created[i]? with
    | some o => { s with created := s.created.set i { o with order := some n } }
    | none => s

/-- Call `Object.create(cssSelectorBuilder)`: a new object without own properties. -/
def Store.objectCreate (s : Store) : Store × Ref :=
  ({ s with created := s.created ++ [{ selector := none, order := none }] },
    Ref.created s.created.length)

/-- String conversion of a property value inside a template literal or a string `+`. -/
def jsToString : Option String → String
  | some t => t
  | none => "undefined"

/-- Method `error(order)` with the receiver given by reference. -/
def Store.error (s : Store) (this : Ref) (order : Nat) : Except String Unit :=
  if jsStrictEq order (s.readOrder this) && jsIndexOf [1, 2, 6] order != -1 then
    Except.error DuplicateSingletonPart
  else if jsLt order (s.readOrder this) then
    Except.error OutOfOrderPart
  else
    Except.ok ()

/-- Method `element(value)` on the store; the store is returned also when `error` throws. -/
def Store.element (s : Store) (this : Ref) (value : String) : Store × Except String Ref :=
  let (s, obj) := s.objectCreate
  let s := s.writeSelector obj
    (jsToString (s.readSelector obj) ++ (jsToString (s.readSelector this) ++ value))
  let s := s.writeOrder obj 1
  (s, (s.error this 1).bind fun _ => Except.ok obj)

/-- Method `id(value)` on the store. -/
def Store.id (s : Store) (this : Ref) (value : String) : Store × Except String Ref :=
  let (s, obj) := s.objectCreate
  let s := s.writeSelector obj
    (jsToString (s.readSelector obj) ++ (jsToString (s.readSelector this) ++ "#" ++ value))
  let s := s.writeOrder obj 2
  (s, (s.error this 2).bind fun _ => Except.ok obj)

/-- Method `class(value)` on the store. -/
def Store.«class» (s : Store) (this : Ref) (value : String) : Store × Except String Ref :=
  let (s, obj) := s.objectCreate
  let s := s.writeSelector obj
    (jsToString (s.readSelector obj) ++ (jsToString (s.readSelector this) ++ "." ++ value))
  let s := s.writeOrder obj 3
  (s, (s.error this 3).bind fun _ => Except.ok obj)

/-- Method `attr(value)` on the store. -/
def Store.attr (s : Store) (this : Ref) (value : String) : Store × Except String Ref :=
  let (s, obj) := s.objectCreate
  let s := s.writeSelector obj
    (jsToString (s.readSelector obj) ++ (jsToString (s.readSelector this) ++ "[" ++ value ++ "]"))
  let s := s.writeOrder obj 4
  (s, (s.error this 4).bind fun _ => Except.ok obj)

/-- Method `pseudoClass(value)` on the store. -/
def Store.pseudoClass (s : Store) (this : Ref) (value : String) : Store × Except String Ref :=
  let (s, obj) := s.objectCreate
  let s := s.writeSelector obj
    (jsToString (s.readSelector obj) ++ (jsToString (s.readSelector this) ++ ":" ++ value))
  let s := s.writeOrder obj 5
  (s, (s.error this 5).bind fun _ => Except.ok obj)

/-- Method `pseudoElement(value)` on the store. -/
def Store.pseudoElement (s : Store) (this : Ref) (value : String) : Store × Except String Ref :=
  let (s, obj) := s.objectCreate
  let s := s.writeSelector obj
    (jsToString (s.readSelector obj) ++ (jsToString (s.readSelector this) ++ "::" ++ value))
  let s := s.writeOrder obj 6
  (s, (s.error this 6).bind fun _ => Except.ok obj)

/-- Method `stringify()` on the store: the value of `this.selector`. -/
def Store.stringify (s : Store) (this : Ref) : Option String :=
  s.readSelector this

/-- Method `combine(selector1, combinator, selector2)` on the store. -/
def Store.combine (s : Store) (selector1 : Ref) (combinator : String) (selector2 : Ref) :
    Store × Ref :=
  let (s, obj) := s.objectCreate
  let s := s.writeSelector obj
    (jsToString (s.readSelector obj) ++
      (jsToString (s.stringify selector1) ++ " " ++ combinator ++ " " ++
        jsToString (s.stringify selector2)))
  (s, obj)

/-- Construction call of the given category on the store. -/
def Store.call : Category → Store → Ref → String → Store × Except String Ref
  | .Element => Store.element
  | .Id => Store.id
  | .Class => Store.«class»
  | .Attribute => Store.attr
  | .PseudoClass => Store.pseudoClass
  | .PseudoElement => Store.pseudoElement

/-- Common shape of the six construction methods on the store: create the object, write its
`selector` and its `order`, then run `error` on the receiver. -/
def Store.construct (s : Store) (this : Ref) (fragment : String) (order : Nat) :
    Store × Except String Ref :=
  let (s, obj) := s.objectCreate
  let s := s.writeSelector obj
    (jsToString (s.readSelector obj) ++ (jsToString (s.readSelector this) ++ fragment))
  let s := s.writeOrder obj order
  (s, (s.error this order).bind fun _ => Except.ok obj)

/-- Whether a reference points to an object that exists in the store. -/
def Store.allocated (s : Store) (r : Ref) : Bool :=
  (s.own r).isSome

/-- What a caller can observe of an object: its visible `selector` (as text) and `order`. -/
def Store.view (s : Store) (r : Ref) : Builder :=
  { selector := jsToString (s.readSelector r), order := s.readOrder r }

/-- What a caller can observe of the outcome of a construction call: the thrown message, or
the visible properties of the returned object. -/
def Store.outcome (p : Store × Except String Ref) : Except String Builder :=
  p.2.map fun obj => p.1.view obj

/-! ## Promise tasks

Embedding of `willYouMarryMe`, `myPromiseAll` and `chainPromises` from
`src/06-promises-tasks.js`. A promise is represented by the state it ends in. The executor of
`new Promise` runs synchronously, so its calls of `resolve` and `reject` are applied in program
order. The callbacks that `myPromiseAll` registers on the promises of its argument run later,
one per settled promise, in an order that depends on when the promises settle: that order is
the explicit argument `schedule`, the list of array indices in the order in which their
callbacks run. -/

/-- JavaScript values that occur in the promise tasks; an `Error` object is represented by
its message. -/
inductive JSValue where
  | undefined
  | null
  | boolean (b : Bool)
  | number (n : Int)
  | string (s : String)
  | error (message : String)
deriving DecidableEq, Repr

/-- State a promise ends in: it stays pending, or it is fulfilled with a value, or it is
rejected with a reason. -/
inductive PromiseState (α ε : Type) where
  | pending
  | fulfilled (value : α)
  | rejected (reason : ε)
deriving DecidableEq, Repr

/-- Function `resolve` of a promise, called with a value that is not a thenable: it fulfils a
pending promise and has no effect on a settled one. -/
def PromiseState.resolve {α ε : Type} (p : PromiseState α ε) (value : α) : PromiseState α ε :=
  match p with
  | .pending => .fulfilled value
  | .fulfilled x => .fulfilled x
  | .rejected e => .rejected e

/-- Function `reject` of a promise: it rejects a pending promise and has no effect on a
settled one. -/
def PromiseState.reject {α ε : Type} (p : PromiseState α ε) (reason : ε) : PromiseState α ε :=
  match p with
  | .pending => .rejected reason
  | .fulfilled x => .fulfilled x
  | .rejected e => .rejected e

/-- Strict equality `x === y` on the values of `JSValue`. -/
def JSValue.strictEq (x y : JSValue) : Bool :=
  decide (x = y)

/-- Function `willYouMarryMe(isPositiveAnswer)`; a missing argument is `undefined`. The calls
`p1.then((value) => value)` and `p2.catch((error) => error)` make new promises that are
dropped, and leave `p1` and `p2` as they are. -/
def willYouMarryMe (isPositiveAnswer : JSValue) : PromiseState JSValue JSValue :=
  let p1 : PromiseState JSValue JSValue := PromiseState.pending
  let p1 :=
    if isPositiveAnswer.strictEq (.boolean true) then
      p1.resolve (.string "Hooray!!! She said \"Yes\"!")
    else p1
  let p1 :=
    if isPositiveAnswer.strictEq (.boolean false) then
      p1.resolve (.string "Oh no, she said \"No\".")
    else p1
  let p2 : PromiseState JSValue JSValue := PromiseState.pending
  let p2 :=
    if !(isPositiveAnswer.strictEq (.boolean true))
        && !(isPositiveAnswer.strictEq (.boolean false)) then
      p2.reject (.error "Wrong parameter is passed! Ask her again.")
    else p2
  let p3 :=
    if isPositiveAnswer.strictEq (.boolean true)
        || isPositiveAnswer.strictEq (.boolean false) then p1
    else p2
  p3

/-- Array assignment `results[index] = val` on an array with holes (`none` is a hole): an
index past the end extends the array and leaves holes in between. -/
def jsArraySet {V : Type} (results : List (Option V)) (index : Nat) (val : V) :
    List (Option V) :=
  if index < results.length then results.set index (some val)
  else results ++ List.replicate (index - results.length) none ++ [some val]

/-- Array method `reduce(callback)` without an initial value: holes are skipped, the first
element is the first accumulator; on an array without elements it throws a `TypeError`,
which is `none` here. -/
def jsReduce {V : Type} (callback : V → V → V) (xs : List (Option V)) : Option V :=
  match xs.reduceOption with
  | [] => none
  | x :: rest => some (rest.foldl callback x)

/-- Variables shared by the callbacks inside `myPromiseAll`: the array `results`, the counter
`promisesCompleted`, and the promise that `myPromiseAll` returns. -/
structure MyPromiseAllState (V : Type) where
  results : List (Option V)
  promisesCompleted : Nat
  promise : PromiseState (List (Option V)) V
deriving DecidableEq, Repr

/-- Callback that `myPromiseAll` registered on the promise at `index`, run once that promise
is settled: the `then` callback for a fulfilled promise, the `catch` callback for a rejected
one; a promise that stays pending runs no callback. -/
def myPromiseAll.react {V : Type} (taskList : List (PromiseState V V))
    (st : MyPromiseAllState V) (index : Nat) : MyPromiseAllState V :=
  match taskList[index]? with
  | some (.fulfilled val) =>
    let results := jsArraySet st.results index val
    let promisesCompleted := st.promisesCompleted + 1
    let promise :=
      if promisesCompleted = taskList.length then st.promise.resolve results
      else st.promise
    { results := results, promisesCompleted := promisesCompleted, promise := promise }
  | some (.rejected error) => { st with promise := st.promise.reject error }
  | some .pending => st
  | none => st

/-- Function `myPromiseAll(taskList)` with the callbacks run in the order of `schedule`;
the field `promise` of the result is the returned promise. -/
def myPromiseAll {V : Type} (taskList : List (PromiseState V V)) (schedule : List Nat) :
    MyPromiseAllState V :=
  schedule.foldl (myPromiseAll.react taskList)
    { results := [], promisesCompleted := 0, promise := PromiseState.pending }

/-- Function `chainPromises(array, action)` with the callbacks run in the order of `schedule`:
`then` with the reducing callback and with `(error) => error` as the rejection callback. A
`TypeError` thrown by `reduce` rejects the returned promise; it is represented by its
message. -/
def chainPromises {V : Type} (array : List (PromiseState V V)) (action : V → V → V)
    (schedule : List Nat) : PromiseState V String :=
  match (myPromiseAll array schedule).promise with
  | .pending => .pending
  | .fulfilled result =>
    match jsReduce (fun acc cur => action acc cur) result with
    | some value => .fulfilled value
    | none => .rejected "Reduce of empty array with no initial value"
  | .rejected error => .fulfilled error

/-! ## Evaluation of a single construction call -/

/-- The two error messages are different strings. -/
theorem DuplicateSingletonPart_ne_OutOfOrderPart : DuplicateSingletonPart ≠ OutOfOrderPart := by
  decide

/-- The builder a successful call of category `k` returns. -/
theorem call_result_eq (k : Category) (r : Builder) (v : String) :
    k.call r v =
      (cssSelectorBuilder.error r k.ordinal).bind fun _ =>
        Except.ok { selector := r.selector ++ k.fragment v, order := some k.ordinal } := by
  cases k <;>
    simp [Category.call, Category.ordinal, Category.fragment, cssSelectorBuilder.element,
      cssSelectorBuilder.id, cssSelectorBuilder.«class», cssSelectorBuilder.attr,
      cssSelectorBuilder.pseudoClass, cssSelectorBuilder.pseudoElement, cssSelectorBuilder,
      String.append_assoc]

/-- The membership test `[1, 2, 6].indexOf(order) !== -1` on the ordinal of a category. -/
theorem jsIndexOf_singleton (k : Category) :
    (jsIndexOf [1, 2, 6] k.ordinal != -1) =
      decide (k.ordinal = 1 ∨ k.ordinal = 2 ∨ k.ordinal = 6) := by
  cases k <;> decide

/-- On a receiver without `order`, neither check of `error` fires. -/
theorem error_none (r : Builder) (n : Nat) (h : r.order = none) :
    cssSelectorBuilder.error r n = Except.ok () := by
  simp [cssSelectorBuilder.error, jsStrictEq, jsLt, h]

/-- Checks of `error` for a category ordinal on a receiver whose `order` is the number `c`. -/
theorem error_some (k : Category) (r : Builder) (c : Nat) (h : r.order = some c) :
    cssSelectorBuilder.error r k.ordinal =
      if k.ordinal = c ∧ (k.ordinal = 1 ∨ k.ordinal = 2 ∨ k.ordinal = 6) then
        Except.error DuplicateSingletonPart
      else if k.ordinal < c then Except.error OutOfOrderPart
      else Except.ok () := by
  rw [cssSelectorBuilder.error, h, jsIndexOf_singleton]
  cases k <;> simp [jsStrictEq, jsLt, Category.ordinal]

/-- A construction call on a receiver without `order` succeeds. -/
theorem call_none (k : Category) (r : Builder) (v : String) (h : r.order = none) :
    k.call r v = Except.ok { selector := r.selector ++ k.fragment v, order := some k.ordinal } := by
  rw [call_result_eq, error_none r k.ordinal h]
  rfl

/-- A construction call on a receiver whose `order` is the number `c`. -/
theorem call_some (k : Category) (r : Builder) (v : String) (c : Nat) (h : r.order = some c) :
    k.call r v =
      if k.ordinal = c ∧ (k.ordinal = 1 ∨ k.ordinal = 2 ∨ k.ordinal = 6) then
        Except.error DuplicateSingletonPart
      else if k.ordinal < c then Except.error OutOfOrderPart
      else Except.ok { selector := r.selector ++ k.fragment v, order := some k.ordinal } := by
  rw [call_result_eq, error_some k r c h]
  split_ifs <;> rfl

/-! ## Validation policy of a single call -/

/-- C1: for every receiver and every construction call, the call throws the
duplicate-singleton error exactly when its ordinal equals the receiver's `order` and is one of
1, 2, 6; otherwise it throws the ordering error exactly when its ordinal is below the receiver's
`order`; otherwise it succeeds. Every call on a receiver without `order` succeeds, and `class`,
`attr`, `pseudoClass` succeed on a receiver of their own ordinal. -/
theorem C1_validation_policy (r : Builder) (k : Category) (v : String) :
    (k.call r v = Except.error DuplicateSingletonPart ↔
      r.order = some k.ordinal ∧ (k.ordinal = 1 ∨ k.ordinal = 2 ∨ k.ordinal = 6)) ∧
    (k.call r v = Except.error OutOfOrderPart ↔
      ¬ (r.order = some k.ordinal ∧ (k.ordinal = 1 ∨ k.ordinal = 2 ∨ k.ordinal = 6)) ∧
        ∃ c, r.order = some c ∧ k.ordinal < c) ∧
    ((∃ b, k.call r v = Except.ok b) ↔
      ¬ (r.order = some k.ordinal ∧ (k.ordinal = 1 ∨ k.ordinal = 2 ∨ k.ordinal = 6)) ∧
        ¬ ∃ c, r.order = some c ∧ k.ordinal < c) ∧
    (∃ b, k.call { selector := r.selector, order := none } v = Except.ok b) ∧
    (∃ b, cssSelectorBuilder.«class» { selector := r.selector, order := some 3 } v
      = Except.ok b) ∧
    (∃ b, cssSelectorBuilder.attr { selector := r.selector, order := some 4 } v
      = Except.ok b) ∧
    (∃ b, cssSelectorBuilder.pseudoClass { selector := r.selector, order := some 5 } v
      = Except.ok b) := by
  have hne := DuplicateSingletonPart_ne_OutOfOrderPart
  have hne2 := hne.symm
  refine ⟨?_, ?_, ?_, ⟨_, call_none k _ v rfl⟩, ⟨?_, ?_⟩, ⟨?_, ?_⟩, ⟨?_, ?_⟩⟩
  rotate_left 3
  · exact ⟨r.selector ++ Category.Class.fragment v, some 3⟩
  · exact (call_some Category.Class ⟨r.selector, some 3⟩ v 3 rfl).trans
      (by simp [Category.ordinal])
  · exact ⟨r.selector ++ Category.Attribute.fragment v, some 4⟩
  · exact (call_some Category.Attribute ⟨r.selector, some 4⟩ v 4 rfl).trans
      (by simp [Category.ordinal])
  · exact ⟨r.selector ++ Category.PseudoClass.fragment v, some 5⟩
  · exact (call_some Category.PseudoClass ⟨r.selector, some 5⟩ v 5 rfl).trans
      (by simp [Category.ordinal])
  · cases hc : r.order with
    | none => simp [call_none k r v hc]
    | some c =>
      rw [call_some k r v c hc]
      cases k <;> simp only [Category.ordinal] <;> split_ifs <;> simp_all <;> omega
  · cases hc : r.order with
    | none => simp [call_none k r v hc]
    | some c =>
      rw [call_some k r v c hc]
      cases k <;> simp only [Category.ordinal] <;> split_ifs <;> simp_all <;> omega
  · cases hc : r.order with
    | none => simp [call_none k r v hc]
    | some c =>
      rw [call_some k r v c hc]
      cases k <;> simp only [Category.ordinal] <;> split_ifs <;> simp_all <;> omega

/-! ## Chains of construction calls -/

/-- Ordinals of categories are pairwise distinct. -/
theorem Category.ordinal_injective (k j : Category) (h : k.ordinal = j.ordinal) : k = j := by
  cases k <;> cases j <;> simp [Category.ordinal] at h <;> rfl

/-- A list of calls whose ordinals are non-decreasing, in which each singleton category occurs
at most once, and which is compatible with the receiver's `order`, is accepted call by call,
and the text of the result is the receiver's text followed by the fragments. -/
theorem applyCalls_of_sorted (calls : List (Category × String)) :
    ∀ r : Builder,
      (ordinals calls).Sorted (· ≤ ·) →
      (∀ k : Category, (k = .Element ∨ k = .Id ∨ k = .PseudoElement) →
        (categories calls).count k ≤ 1) →
      (∀ c, r.order = some c → ∀ x ∈ calls, c ≤ x.1.ordinal ∧
        (x.1.ordinal = c → ¬ (c = 1 ∨ c = 2 ∨ c = 6))) →
      ∃ b, applyCalls r calls = Except.ok b ∧
        b.selector = r.selector ++ concatFragments calls := by
  induction calls with
  | nil =>
    intro r _ _ _
    exact ⟨r, rfl, by simp [concatFragments]⟩
  | cons x rest ih =>
    obtain ⟨k, v⟩ := x
    intro r hs hc ho
    have hcall : k.call r v
        = Except.ok { selector := r.selector ++ k.fragment v, order := some k.ordinal } := by
      cases hr : r.order with
      | none => exact call_none k r v hr
      | some c =>
        have hx := ho c hr (k, v) (List.mem_cons_self _ _)
        rw [call_some k r v c hr, if_neg, if_neg]
        · exact Nat.not_lt.mpr hx.1
        · rintro ⟨h1, h2⟩
          exact hx.2 h1 (h1 ▸ h2)
    have hs2 : (ordinals rest).Sorted (· ≤ ·) := by
      simp only [ordinals, List.map_cons, List.sorted_cons] at hs
      exact hs.2
    have hhead : ∀ x ∈ rest, k.ordinal ≤ x.1.ordinal := by
      simp only [ordinals, List.map_cons, List.sorted_cons, List.mem_map] at hs
      intro x hx
      exact hs.1 _ ⟨x, hx, rfl⟩
    have hc2 : ∀ j : Category, (j = .Element ∨ j = .Id ∨ j = .PseudoElement) →
        (categories rest).count j ≤ 1 := by
      intro j hj
      have := hc j hj
      simp only [categories, List.map_cons] at this ⊢
      exact le_trans (List.count_le_count_cons _ _ _) this
    obtain ⟨b, hb, htext⟩ := ih { selector := r.selector ++ k.fragment v, order := some k.ordinal }
      hs2 hc2 (by
        intro c hceq x hx
        simp only [Option.some.injEq] at hceq
        subst hceq
        refine ⟨hhead x hx, fun heq hsing => ?_⟩
        have hkx : x.1 = k := Category.ordinal_injective _ _ heq
        have hk : k = .Element ∨ k = .Id ∨ k = .PseudoElement := by
          cases k <;> simp [Category.ordinal] at hsing <;> simp
        have hcount := hc k hk
        have hmem : k ∈ categories rest := by
          simp only [categories, List.mem_map]
          exact ⟨x, hx, hkx⟩
        have hpos : 0 < (categories rest).count k := List.count_pos_iff.mpr hmem
        simp only [categories, List.map_cons, List.count_cons_self] at hcount hpos
        omega)
    refine ⟨b, ?_, ?_⟩
    · simp only [applyCalls, hcall]
      exact hb
    · rw [htext]
      simp [concatFragments, String.append_assoc]

/-- C2: for every list of construction calls whose ordinals are non-decreasing and in which
Element, Id and PseudoElement each occur at most once, applying the calls in order from the
factory succeeds after every number of steps, and `stringify()` of the result is the
concatenation of the fragments in call order; the two documented chains render
`#main.container.editable` and `a[href$=".png"]:focus`. -/
theorem C2_valid_chain_renders (calls : List (Category × String))
    (hsorted : (ordinals calls).Sorted (· ≤ ·))
    (hElement : (categories calls).count Category.Element ≤ 1)
    (hId : (categories calls).count Category.Id ≤ 1)
    (hPseudoElement : (categories calls).count Category.PseudoElement ≤ 1) :
    (∀ n, ∃ b, applyCalls cssSelectorBuilder (calls.take n) = Except.ok b ∧
      cssSelectorBuilder.stringify b = concatFragments (calls.take n)) ∧
    (∃ b, applyCalls cssSelectorBuilder calls = Except.ok b ∧
      cssSelectorBuilder.stringify b = concatFragments calls) ∧
    (applyCalls cssSelectorBuilder
        [(.Id, "main"), (.Class, "container"), (.Class, "editable")]).map
      cssSelectorBuilder.stringify = Except.ok "#main.container.editable" ∧
    (applyCalls cssSelectorBuilder
        [(.Element, "a"), (.Attribute, "href$=\".png\""), (.PseudoClass, "focus")]).map
      cssSelectorBuilder.stringify = Except.ok "a[href$=\".png\"]:focus" := by
  have hcount : ∀ k : Category, (k = .Element ∨ k = .Id ∨ k = .PseudoElement) →
      (categories calls).count k ≤ 1 := by
    rintro k (rfl | rfl | rfl) <;> assumption
  have key : ∀ l : List (Category × String), l.Sublist calls →
      ∃ b, applyCalls cssSelectorBuilder l = Except.ok b ∧
        cssSelectorBuilder.stringify b = concatFragments l := by
    intro l hl
    have h1 : (ordinals l).Sorted (· ≤ ·) :=
      List.Pairwise.sublist (hl.map _) hsorted
    have h2 : ∀ k : Category, (k = .Element ∨ k = .Id ∨ k = .PseudoElement) →
        (categories l).count k ≤ 1 :=
      fun k hk => le_trans ((hl.map _).count_le k) (hcount k hk)
    obtain ⟨b, hb, htext⟩ := applyCalls_of_sorted l cssSelectorBuilder h1 h2
      (fun c hc => by simp [cssSelectorBuilder] at hc)
    refine ⟨b, hb, ?_⟩
    rw [cssSelectorBuilder.stringify, htext]
    simp [cssSelectorBuilder]
  exact ⟨fun n => key _ (List.take_sublist n calls), key _ (List.Sublist.refl calls),
    by decide, by decide⟩

/-- Instance of C2 at the chain `id('main').class('container').class('editable')`. -/
theorem C2_valid_chain_renders_witness :
    (ordinals [(.Id, "main"), (.Class, "container"), (.Class, "editable")]).Sorted (· ≤ ·) ∧
    (∃ b, applyCalls cssSelectorBuilder
        [(.Id, "main"), (.Class, "container"), (.Class, "editable")] = Except.ok b ∧
      cssSelectorBuilder.stringify b =
        concatFragments [(.Id, "main"), (.Class, "container"), (.Class, "editable")]) ∧
    concatFragments [(.Id, "main"), (.Class, "container"), (.Class, "editable")]
      = "#main.container.editable" :=
  ⟨by decide,
    (C2_valid_chain_renders [(.Id, "main"), (.Class, "container"), (.Class, "editable")]
      (by decide) (by decide) (by decide) (by decide)).2.1,
    by decide⟩

/-! ## What a successful chain looks like -/

/-- A successful construction call: the builder it returns, and what the receiver's `order`
allowed. -/
theorem call_ok_inv (k : Category) (r b : Builder) (v : String) (h : k.call r v = Except.ok b) :
    b = { selector := r.selector ++ k.fragment v, order := some k.ordinal } ∧
    ∀ c, r.order = some c →
      c ≤ k.ordinal ∧ (k.ordinal = c → ¬ (k.ordinal = 1 ∨ k.ordinal = 2 ∨ k.ordinal = 6)) := by
  cases hr : r.order with
  | none =>
    rw [call_none k r v hr] at h
    exact ⟨(Except.ok.inj h).symm, fun c hc => by simp at hc⟩
  | some c =>
    rw [call_some k r v c hr] at h
    split_ifs at h with h1 h2
    refine ⟨(Except.ok.inj h).symm, fun c2 hc2 => ?_⟩
    simp only [Option.some.injEq] at hc2
    subst hc2
    exact ⟨Nat.not_lt.mp h2, fun he hs => h1 ⟨he, hs⟩⟩

/-- A successful chain with a first call splits into that call and the rest of the chain. -/
theorem applyCalls_cons_ok (k : Category) (v : String) (rest : List (Category × String))
    (r b : Builder) (h : applyCalls r ((k, v) :: rest) = Except.ok b) :
    applyCalls { selector := r.selector ++ k.fragment v, order := some k.ordinal } rest
      = Except.ok b ∧
    ∀ c, r.order = some c →
      c ≤ k.ordinal ∧ (k.ordinal = c → ¬ (k.ordinal = 1 ∨ k.ordinal = 2 ∨ k.ordinal = 6)) := by
  simp only [applyCalls] at h
  cases hcall : k.call r v with
  | error e => rw [hcall] at h; cases h
  | ok r1 =>
    rw [hcall] at h
    obtain ⟨hr1, hord⟩ := call_ok_inv k r r1 v hcall
    subst hr1
    exact ⟨h, hord⟩

/-- Along a successful chain `order` never decreases. -/
theorem applyCalls_order_mono (calls : List (Category × String)) :
    ∀ r b : Builder, applyCalls r calls = Except.ok b →
      ∀ c0, r.order = some c0 → ∃ c, b.order = some c ∧ c0 ≤ c := by
  induction calls with
  | nil =>
    intro r b h c0 hc0
    simp only [applyCalls] at h
    cases h
    exact ⟨c0, hc0, le_refl _⟩
  | cons x rest ih =>
    obtain ⟨k, v⟩ := x
    intro r b h c0 hc0
    obtain ⟨hrest, hord⟩ := applyCalls_cons_ok k v rest r b h
    obtain ⟨c, hc, hle⟩ := ih _ b hrest k.ordinal rfl
    exact ⟨c, hc, le_trans (hord c0 hc0).1 hle⟩

/-- The `order` of the result of a successful chain is at least every ordinal of the chain. -/
theorem applyCalls_order_dominates (calls : List (Category × String)) :
    ∀ r b : Builder, applyCalls r calls = Except.ok b →
      ∀ m ∈ ordinals calls, ∃ c, b.order = some c ∧ m ≤ c := by
  induction calls with
  | nil =>
    intro r b _ m hm
    simp [ordinals] at hm
  | cons x rest ih =>
    obtain ⟨k, v⟩ := x
    intro r b h m hm
    obtain ⟨hrest, _⟩ := applyCalls_cons_ok k v rest r b h
    simp only [ordinals, List.map_cons, List.mem_cons] at hm
    rcases hm with rfl | hm
    · exact applyCalls_order_mono rest _ b hrest k.ordinal rfl
    · exact ih _ b hrest m hm

/-- Every ordinal of a successful chain is at least the receiver's `order`. -/
theorem applyCalls_ordinals_ge (calls : List (Category × String)) :
    ∀ r b : Builder, applyCalls r calls = Except.ok b →
      ∀ c, r.order = some c → ∀ m ∈ ordinals calls, c ≤ m := by
  induction calls with
  | nil =>
    intro r b _ c _ m hm
    simp [ordinals] at hm
  | cons x rest ih =>
    obtain ⟨k, v⟩ := x
    intro r b h c hc m hm
    obtain ⟨hrest, hord⟩ := applyCalls_cons_ok k v rest r b h
    simp only [ordinals, List.map_cons, List.mem_cons] at hm
    rcases hm with rfl | hm
    · exact (hord c hc).1
    · exact le_trans (hord c hc).1 (ih _ b hrest k.ordinal rfl m hm)

/-- The ordinals of a successful chain are non-decreasing. -/
theorem applyCalls_sorted (calls : List (Category × String)) :
    ∀ r b : Builder, applyCalls r calls = Except.ok b → (ordinals calls).Sorted (· ≤ ·) := by
  induction calls with
  | nil =>
    intro r b _
    simp [ordinals]
  | cons x rest ih =>
    obtain ⟨k, v⟩ := x
    intro r b h
    obtain ⟨hrest, _⟩ := applyCalls_cons_ok k v rest r b h
    simp only [ordinals, List.map_cons, List.sorted_cons]
    exact ⟨fun m hm => applyCalls_ordinals_ge rest _ b hrest k.ordinal rfl m hm,
      ih _ b hrest⟩

/-- The result of a successful chain carries the ordinal of the last call as its `order`
(the receiver's `order` when the chain is empty), and the receiver's text followed by the
fragments as its text. -/
theorem applyCalls_result (calls : List (Category × String)) :
    ∀ r b : Builder, applyCalls r calls = Except.ok b →
      b.order = (match calls.getLast? with
        | some x => some x.1.ordinal
        | none => r.order) ∧
      b.selector = r.selector ++ concatFragments calls := by
  induction calls with
  | nil =>
    intro r b h
    simp only [applyCalls] at h
    cases h
    simp [concatFragments]
  | cons x rest ih =>
    obtain ⟨k, v⟩ := x
    intro r b h
    obtain ⟨hrest, _⟩ := applyCalls_cons_ok k v rest r b h
    obtain ⟨ho, ht⟩ := ih _ b hrest
    refine ⟨?_, ?_⟩
    · rw [ho]
      cases rest with
      | nil => rfl
      | cons y t =>
        rw [List.getLast?_cons_cons]
        cases hl : (y :: t).getLast? with
        | none => simp at hl
        | some z => rfl
    · rw [ht]
      simp [concatFragments, String.append_assoc]

/-- In a successful chain a singleton category occurs at most once, and not at all when the
receiver's `order` already is its ordinal. -/
theorem applyCalls_singleton_count (j : Category)
    (hj : j = .Element ∨ j = .Id ∨ j = .PseudoElement) (calls : List (Category × String)) :
    ∀ r b : Builder, applyCalls r calls = Except.ok b →
      (categories calls).count j ≤ 1 ∧
      (r.order = some j.ordinal → (categories calls).count j = 0) := by
  have hsing : j.ordinal = 1 ∨ j.ordinal = 2 ∨ j.ordinal = 6 := by
    rcases hj with rfl | rfl | rfl <;> simp [Category.ordinal]
  induction calls with
  | nil =>
    intro r b _
    simp [categories]
  | cons x rest ih =>
    obtain ⟨k, v⟩ := x
    intro r b h
    obtain ⟨hrest, hord⟩ := applyCalls_cons_ok k v rest r b h
    obtain ⟨ih1, ih2⟩ := ih _ b hrest
    have hcons : (categories ((k, v) :: rest)).count j
        = (categories rest).count j + if k = j then 1 else 0 := by
      simp [categories, List.count_cons]
    rw [hcons]
    refine ⟨?_, fun hr => ?_⟩
    · by_cases hkj : k = j
      · have := ih2 (by rw [hkj])
        simp [hkj, this]
      · simp [hkj, ih1]
    · obtain ⟨hle, hne⟩ := hord j.ordinal hr
      have hkj : k ≠ j := fun he => hne (by rw [he]) (by rw [he]; exact hsing)
      have hlt : j.ordinal < k.ordinal :=
        lt_of_le_of_ne hle (fun he => hkj (Category.ordinal_injective _ _ he.symm))
      have hnot : j ∉ categories rest := by
        intro hmem
        simp only [categories, List.mem_map] at hmem
        obtain ⟨y, hy, hyj⟩ := hmem
        have := applyCalls_ordinals_ge rest _ b hrest k.ordinal rfl y.1.ordinal
          (by simp only [ordinals, List.mem_map]; exact ⟨y, hy, rfl⟩)
        rw [hyj] at this
        omega
      simp [hkj, List.count_eq_zero_of_not_mem hnot]

/-- An ordinal below the highest ordinal of a list of calls is below one of its ordinals. -/
theorem lt_highestOrdinal (calls : List (Category × String)) (n : Nat)
    (h : n < highestOrdinal calls) : ∃ m ∈ ordinals calls, n < m := by
  induction calls with
  | nil => simp [highestOrdinal, ordinals] at h
  | cons x rest ih =>
    simp only [highestOrdinal, ordinals, List.map_cons, List.foldr_cons, lt_max_iff] at h
    rcases h with h | h
    · exact ⟨x.1.ordinal, by simp [ordinals], h⟩
    · obtain ⟨m, hm, hlt⟩ := ih h
      exact ⟨m, by simp only [ordinals, List.map_cons, List.mem_cons]; exact Or.inr hm, hlt⟩

/-! ## Error raised by a further call on a built chain -/

/-- C3 (as amended): on a builder obtained from the factory by successful construction calls
that contain an Element (resp. Id, PseudoElement) part, a further call of the same category
fails: with the duplicate-singleton error when that part is the last part of the chain, and
with the ordering error when other parts were appended after it. -/
theorem C3_repeated_singleton_fails (calls : List (Category × String)) (b : Builder)
    (k : Category) (v : String)
    (hbuilt : applyCalls cssSelectorBuilder calls = Except.ok b)
    (hk : k = .Element ∨ k = .Id ∨ k = .PseudoElement)
    (hmem : k ∈ categories calls) :
    k.call b v =
      if calls.getLast?.map Prod.fst = some k then Except.error DuplicateSingletonPart
      else Except.error OutOfOrderPart := by
  have hsing : k.ordinal = 1 ∨ k.ordinal = 2 ∨ k.ordinal = 6 := by
    rcases hk with rfl | rfl | rfl <;> simp [Category.ordinal]
  have hmem2 : k.ordinal ∈ ordinals calls := by
    simp only [categories, List.mem_map] at hmem
    obtain ⟨x, hx, hxk⟩ := hmem
    simp only [ordinals, List.mem_map]
    exact ⟨x, hx, by rw [hxk]⟩
  obtain ⟨c, hc, hle⟩ := applyCalls_order_dominates calls _ b hbuilt k.ordinal hmem2
  obtain ⟨hlast, _⟩ := applyCalls_result calls _ b hbuilt
  rw [call_some k b v c hc]
  cases hl : calls.getLast? with
  | none =>
    rw [List.getLast?_eq_none_iff] at hl
    rw [hl] at hmem
    simp [categories] at hmem
  | some x =>
    rw [hl, hc] at hlast
    simp only [Option.some.injEq] at hlast
    by_cases hxk : x.1 = k
    · have hck : k.ordinal = c := by rw [hlast, hxk]
      rw [if_pos ⟨hck, hsing⟩, if_pos (by simp [hxk])]
    · have hne : k.ordinal ≠ c := fun he =>
        hxk (Category.ordinal_injective _ _ (by rw [he, hlast])).symm
      have hlt : k.ordinal < c := lt_of_le_of_ne hle hne
      rw [if_neg (fun h => hne h.1), if_pos hlt, if_neg (by simp [hxk])]

/-- Instance of the amended C3 at `element('div').id('main')` followed by `element('span')`:
the Element part is not the last part, and the further call throws the ordering error. -/
theorem C3_repeated_singleton_fails_witness :
    applyCalls cssSelectorBuilder [(.Element, "div"), (.Id, "main")]
      = Except.ok { selector := "div#main", order := some 2 } ∧
    Category.Element ∈ categories [(.Element, "div"), (.Id, "main")] ∧
    Category.Element.call { selector := "div#main", order := some 2 } "span"
      = Except.error OutOfOrderPart :=
  ⟨by decide, by decide,
    (C3_repeated_singleton_fails [(.Element, "div"), (.Id, "main")]
      { selector := "div#main", order := some 2 } .Element "span"
      (by decide) (Or.inl rfl) (by decide)).trans (by decide)⟩

/-- C3 as stated fails: the chain `element('div').id('main')` is built successfully and
contains an Element part, yet a further `element('span')` throws the ordering error and not
the duplicate-singleton error. -/
theorem C3_counterexample :
    applyCalls cssSelectorBuilder [(.Element, "div"), (.Id, "main")]
      = Except.ok { selector := "div#main", order := some 2 } ∧
    Category.Element ∈ categories [(.Element, "div"), (.Id, "main")] ∧
    cssSelectorBuilder.element { selector := "div#main", order := some 2 } "span"
      = Except.error OutOfOrderPart ∧
    cssSelectorBuilder.element { selector := "div#main", order := some 2 } "span"
      ≠ Except.error DuplicateSingletonPart := by
  decide

/-- C4: on a builder obtained from the factory by successful construction calls, a further
call whose ordinal is strictly below the highest ordinal of those calls throws the ordering
error (so neither the duplicate-singleton error nor success); and a pair of calls from the
factory whose second ordinal is strictly below the first stops with the ordering error. -/
theorem C4_lower_category_out_of_order (calls : List (Category × String)) (b : Builder)
    (k : Category) (v : String) (k1 k2 : Category) (v1 v2 : String)
    (hbuilt : applyCalls cssSelectorBuilder calls = Except.ok b)
    (hlow : k.ordinal < highestOrdinal calls)
    (hpair : k2.ordinal < k1.ordinal) :
    k.call b v = Except.error OutOfOrderPart ∧
    k.call b v ≠ Except.error DuplicateSingletonPart ∧
    (∀ b2, k.call b v ≠ Except.ok b2) ∧
    (∃ b1, k1.call cssSelectorBuilder v1 = Except.ok b1 ∧
      k2.call b1 v2 = Except.error OutOfOrderPart) ∧
    applyCalls cssSelectorBuilder [(k1, v1), (k2, v2)] = Except.error OutOfOrderPart := by
  have main : ∀ (l : List (Category × String)) (r : Builder) (j : Category) (w : String),
      applyCalls cssSelectorBuilder l = Except.ok r → j.ordinal < highestOrdinal l →
      j.call r w = Except.error OutOfOrderPart := by
    intro l r j w hl hj
    obtain ⟨m, hm, hlt⟩ := lt_highestOrdinal l j.ordinal hj
    obtain ⟨c, hc, hle⟩ := applyCalls_order_dominates l _ r hl m hm
    have hjc : j.ordinal < c := lt_of_lt_of_le hlt hle
    rw [call_some j r w c hc, if_neg (fun h => absurd h.1 (Nat.ne_of_lt hjc)), if_pos hjc]
  have hfirst : k1.call cssSelectorBuilder v1
      = Except.ok ⟨cssSelectorBuilder.selector ++ k1.fragment v1, some k1.ordinal⟩ :=
    call_none k1 cssSelectorBuilder v1 rfl
  have hsecond : k2.call ⟨cssSelectorBuilder.selector ++ k1.fragment v1, some k1.ordinal⟩ v2
      = Except.error OutOfOrderPart :=
    main [(k1, v1)] _ k2 v2 (by simp [applyCalls, hfirst]; rfl)
      (by simpa [highestOrdinal, ordinals] using hpair)
  have hcall := main calls b k v hbuilt hlow
  refine ⟨hcall, ?_, ?_, ⟨_, hfirst, hsecond⟩, ?_⟩
  · rw [hcall]
    exact fun h => DuplicateSingletonPart_ne_OutOfOrderPart (Except.error.inj h).symm
  · intro b2
    rw [hcall]
    exact fun h => by cases h
  · simp only [applyCalls, hfirst]
    show (k2.call _ v2).bind _ = _
    rw [hsecond]
    rfl

/-- Instance of C4 at `class('a')` followed by `element('div')`. -/
theorem C4_lower_category_out_of_order_witness :
    applyCalls cssSelectorBuilder [(.Class, "a")]
      = Except.ok { selector := ".a", order := some 3 } ∧
    Category.Element.ordinal < highestOrdinal [(.Class, "a")] ∧
    Category.Element.ordinal < Category.Class.ordinal ∧
    cssSelectorBuilder.element { selector := ".a", order := some 3 } "div"
      = Except.error OutOfOrderPart ∧
    applyCalls cssSelectorBuilder [(.Class, "a"), (.Element, "div")]
      = Except.error OutOfOrderPart :=
  have h := C4_lower_category_out_of_order [(.Class, "a")] { selector := ".a", order := some 3 }
    .Element "div" .Class .Element "a" "div" (by decide) (by decide) (by decide)
  ⟨by decide, by decide, by decide, h.1, h.2.2.2.2⟩

/-! ## Invariants of built chains -/

/-- C8: when every call of a list of construction calls applied from the factory succeeds,
the ordinals of the calls are non-decreasing and each of Element, Id and PseudoElement occurs
at most once among them. -/
theorem C8_built_chain_is_ordered (calls : List (Category × String)) (b : Builder)
    (hbuilt : applyCalls cssSelectorBuilder calls = Except.ok b) :
    (ordinals calls).Sorted (· ≤ ·) ∧
    (categories calls).count Category.Element ≤ 1 ∧
    (categories calls).count Category.Id ≤ 1 ∧
    (categories calls).count Category.PseudoElement ≤ 1 :=
  ⟨applyCalls_sorted calls _ b hbuilt,
    (applyCalls_singleton_count .Element (Or.inl rfl) calls _ b hbuilt).1,
    (applyCalls_singleton_count .Id (Or.inr (Or.inl rfl)) calls _ b hbuilt).1,
    (applyCalls_singleton_count .PseudoElement (Or.inr (Or.inr rfl)) calls _ b hbuilt).1⟩

/-- Instance of C8 at the chain `element('a').attr('href$=".png"').pseudoClass('focus')`. -/
theorem C8_built_chain_is_ordered_witness :
    applyCalls cssSelectorBuilder
        [(.Element, "a"), (.Attribute, "href$=\".png\""), (.PseudoClass, "focus")]
      = Except.ok { selector := "a[href$=\".png\"]:focus", order := some 5 } ∧
    (ordinals [(.Element, "a"), (.Attribute, "href$=\".png\""), (.PseudoClass, "focus")]).Sorted
      (· ≤ ·) ∧
    (categories [(.Element, "a"), (.Attribute, "href$=\".png\""),
      (.PseudoClass, "focus")]).count Category.Element ≤ 1 :=
  have h := C8_built_chain_is_ordered
    [(.Element, "a"), (.Attribute, "href$=\".png\""), (.PseudoClass, "focus")]
    { selector := "a[href$=\".png\"]:focus", order := some 5 } (by decide)
  ⟨by decide, h.1, h.2.1⟩

/-! ## Results of construction calls and of `combine` -/

/-- C6: when a construction call of category `k` with value `v` on a receiver `r` succeeds,
the text of the returned builder is the receiver's text followed by the fragment of `k`
(so the receiver's text is a prefix of it) and its `order` is the ordinal of `k`. -/
theorem C6_successful_call_appends (r b : Builder) (k : Category) (v : String)
    (hok : k.call r v = Except.ok b) :
    b.selector = r.selector ++ k.fragment v ∧
    (∃ t, b.selector = r.selector ++ t) ∧
    b.order = some k.ordinal ∧
    (Category.Element.fragment v = v ∧ Category.Id.fragment v = "#" ++ v ∧
      Category.Class.fragment v = "." ++ v ∧ Category.Attribute.fragment v = "[" ++ v ++ "]" ∧
      Category.PseudoClass.fragment v = ":" ++ v ∧
      Category.PseudoElement.fragment v = "::" ++ v) ∧
    (Category.Element.ordinal = 1 ∧ Category.Id.ordinal = 2 ∧ Category.Class.ordinal = 3 ∧
      Category.Attribute.ordinal = 4 ∧ Category.PseudoClass.ordinal = 5 ∧
      Category.PseudoElement.ordinal = 6) := by
  obtain ⟨hb, _⟩ := call_ok_inv k r b v hok
  subst hb
  exact ⟨rfl, ⟨_, rfl⟩, rfl, ⟨rfl, rfl, rfl, rfl, rfl, rfl⟩, ⟨rfl, rfl, rfl, rfl, rfl, rfl⟩⟩

/-- Instance of C6 at `pseudoElement('after')` called on `div.note`. -/
theorem C6_successful_call_appends_witness :
    cssSelectorBuilder.pseudoElement { selector := "div.note", order := some 3 } "after"
      = Except.ok { selector := "div.note::after", order := some 6 } ∧
    ("div.note::after" = "div.note" ++ Category.PseudoElement.fragment "after" ∧
      some 6 = some Category.PseudoElement.ordinal) :=
  have h := C6_successful_call_appends { selector := "div.note", order := some 3 }
    { selector := "div.note::after", order := some 6 } .PseudoElement "after" (by decide)
  ⟨by decide, h.1, h.2.2.1⟩

/-- C5: for all builders and every combinator text, `combine` returns a builder (it has no
throwing path) whose `stringify()` is the first operand's text, a space, the combinator, a
space, and the second operand's text; this holds for the factory and for results of `combine`
as operands, and the documented call renders `div#main + table#data`. -/
theorem C5_combine_joins (a b : Builder) (op : String) :
    cssSelectorBuilder.stringify (cssSelectorBuilder.combine a op b)
      = cssSelectorBuilder.stringify a ++ " " ++ op ++ " " ++ cssSelectorBuilder.stringify b ∧
    cssSelectorBuilder.stringify (cssSelectorBuilder.combine cssSelectorBuilder op b)
      = " " ++ op ++ " " ++ cssSelectorBuilder.stringify b ∧
    (∀ (c : Builder) (op2 : String),
      cssSelectorBuilder.stringify
          (cssSelectorBuilder.combine (cssSelectorBuilder.combine a op b) op2 c)
        = cssSelectorBuilder.stringify (cssSelectorBuilder.combine a op b) ++ " " ++ op2 ++ " "
            ++ cssSelectorBuilder.stringify c) ∧
    ((applyCalls cssSelectorBuilder [(.Element, "div"), (.Id, "main")]).bind fun x =>
      (applyCalls cssSelectorBuilder [(.Element, "table"), (.Id, "data")]).bind fun y =>
        Except.ok (cssSelectorBuilder.stringify (cssSelectorBuilder.combine x "+" y)))
      = Except.ok "div#main + table#data" := by
  have key : ∀ (x y : Builder) (o : String),
      cssSelectorBuilder.stringify (cssSelectorBuilder.combine x o y)
        = cssSelectorBuilder.stringify x ++ " " ++ o ++ " " ++ cssSelectorBuilder.stringify y := by
    intro x y o
    simp [cssSelectorBuilder.combine, cssSelectorBuilder.stringify, cssSelectorBuilder]
  refine ⟨key a b op, ?_, fun c op2 => key _ c op2, by decide⟩
  rw [key]
  simp [cssSelectorBuilder.stringify, cssSelectorBuilder, String.append_assoc]

/-- C10: for all builders and every combinator text, the result of `combine` has no `order`,
and each of the six construction calls on it, with any value, succeeds and returns a builder
whose text is the combined text followed by the fragment of the call. -/
theorem C10_combine_resets_order (a b : Builder) (op : String) (k : Category) (v : String) :
    (cssSelectorBuilder.combine a op b).order = none ∧
    k.call (cssSelectorBuilder.combine a op b) v
      = Except.ok { selector := cssSelectorBuilder.stringify (cssSelectorBuilder.combine a op b)
                      ++ k.fragment v,
                    order := some k.ordinal } ∧
    k.call (cssSelectorBuilder.combine a op b) v
      = Except.ok { selector := cssSelectorBuilder.stringify a ++ " " ++ op ++ " "
                      ++ cssSelectorBuilder.stringify b ++ k.fragment v,
                    order := some k.ordinal } := by
  have hnone : (cssSelectorBuilder.combine a op b).order = none := rfl
  refine ⟨hnone, call_none k _ v hnone, ?_⟩
  rw [call_none k _ v hnone]
  simp [cssSelectorBuilder.combine, cssSelectorBuilder.stringify, cssSelectorBuilder]

/-! ## Terminal state of the construction calls -/

/-- C9 (as amended): on a receiver whose `order` is absent or one of 1, ..., 5 the call
`pseudoElement` succeeds, so these states are not terminal; on a receiver whose `order` is 6
every construction call throws (`pseudoElement` the duplicate-singleton error, the other five
the ordering error), while `stringify` and `combine` still apply to it. -/
theorem C9_terminal_only_after_pseudoElement (c : Option Nat) (s v : String)
    (hc : c ∈ [none, some 1, some 2, some 3, some 4, some 5]) :
    (∃ b, cssSelectorBuilder.pseudoElement { selector := s, order := c } v = Except.ok b) ∧
    (∀ k : Category, k.call { selector := s, order := some 6 } v =
      if k = Category.PseudoElement then Except.error DuplicateSingletonPart
      else Except.error OutOfOrderPart) ∧
    cssSelectorBuilder.stringify { selector := s, order := some 6 } = s := by
  refine ⟨?_, ?_, rfl⟩
  · have h6 : ∀ r : Builder, (r.order = none ∨ ∃ n, r.order = some n ∧ n < 6) →
        ∃ b, Category.PseudoElement.call r v = Except.ok b := by
      rintro r (hr | ⟨n, hr, hn⟩)
      · exact ⟨_, call_none _ r v hr⟩
      · refine ⟨⟨r.selector ++ Category.PseudoElement.fragment v, some 6⟩, ?_⟩
        rw [call_some _ r v n hr, if_neg, if_neg]
        · rfl
        · simp only [Category.ordinal]; omega
        · simp only [Category.ordinal]; omega
    apply h6
    simp only [List.mem_cons, List.mem_singleton, List.not_mem_nil, or_false] at hc
    rcases hc with rfl | rfl | rfl | rfl | rfl | rfl
    · exact Or.inl rfl
    all_goals exact Or.inr ⟨_, rfl, by decide⟩
  · intro k
    rw [call_some k _ v 6 rfl]
    cases k <;> simp [Category.ordinal]

/-- Instance of the amended C9 at a receiver whose last part is a class. -/
theorem C9_terminal_only_after_pseudoElement_witness :
    some 3 ∈ [none, some 1, some 2, some 3, some 4, some 5] ∧
    ∃ b, cssSelectorBuilder.pseudoElement { selector := "div.note", order := some 3 } "after"
      = Except.ok b :=
  ⟨by decide,
    (C9_terminal_only_after_pseudoElement (some 3) "div.note" "after" (by decide)).1⟩

/-- C9 as stated fails: the chain `element('div').pseudoElement('after')` is built
successfully and has `order` 6, and none of the six construction calls succeeds on it,
whatever the value. -/
theorem C9_counterexample :
    applyCalls cssSelectorBuilder [(.Element, "div"), (.PseudoElement, "after")]
      = Except.ok { selector := "div::after", order := some 6 } ∧
    ¬ ∃ (k : Category) (v : String) (b : Builder),
      k.call { selector := "div::after", order := some 6 } v = Except.ok b := by
  refine ⟨by decide, ?_⟩
  rintro ⟨k, v, b, h⟩
  rw [call_some k _ v 6 rfl] at h
  cases k <;> simp [Category.ordinal] at h

/-! ## Construction calls on the object store -/

/-- Each of the six methods on the store is an instance of `Store.construct`. -/
theorem Store.call_eq_construct (k : Category) (s : Store) (this : Ref) (v : String) :
    Store.call k s this v = Store.construct s this (k.fragment v) k.ordinal := by
  cases k <;>
    simp [Store.call, Store.construct, Store.element, Store.id, Store.«class», Store.attr,
      Store.pseudoClass, Store.pseudoElement, Category.fragment, Category.ordinal,
      String.append_assoc]

/-- Writing the last element of a list that ends in a single element. -/
theorem set_length_append_singleton {α : Type} (l : List α) (e x : α) :
    (l ++ [e]).set l.length x = l ++ [x] := by
  rw [List.set_append_right _ _ (le_refl _)]
  simp

/-- An existing object keeps its own properties when a new object is appended to the store. -/
theorem Store.own_append (s : Store) (o : JSObject) (r : Ref) (hr : s.allocated r = true) :
    Store.own { facade := s.facade, created := s.created ++ [o] } r = s.own r := by
  cases r with
  | facade => rfl
  | created i =>
    simp only [Store.allocated, Store.own] at hr ⊢
    have hi : i < s.created.length := by
      by_contra hn
      rw [List.getElem?_eq_none (Nat.not_lt.mp hn)] at hr
      simp at hr
    exact List.getElem?_append_left hi

/-- The store and the result of the common shape of a construction call, computed. -/
theorem Store.construct_eq (s : Store) (this : Ref) (fragment : String) (order : Nat)
    (hthis : s.allocated this = true) :
    Store.construct s this fragment order =
      ({ facade := s.facade,
         created := s.created ++
           [{ selector := some (jsToString s.facade.selector ++
                (jsToString (s.readSelector this) ++ fragment)),
              order := some order }] },
        (cssSelectorBuilder.error (s.view this) order).bind fun _ =>
          Except.ok (Ref.created s.created.length)) := by
  have hown : ∀ o : JSObject,
      Store.own { facade := s.facade, created := s.created ++ [o] } this = s.own this :=
    fun o => Store.own_append s o this hthis
  have hrs : ∀ o : JSObject,
      Store.readSelector { facade := s.facade, created := s.created ++ [o] } this
        = s.readSelector this := by
    intro o
    simp only [Store.readSelector, hown o]
  have hro : ∀ o : JSObject,
      Store.readOrder { facade := s.facade, created := s.created ++ [o] } this
        = s.readOrder this := by
    intro o
    simp only [Store.readOrder, hown o]
  simp only [Store.construct, Store.objectCreate, Store.writeSelector, Store.writeOrder,
    List.getElem?_concat_length, set_length_append_singleton, hrs, hro, Store.error,
    cssSelectorBuilder.error, Store.view]
  simp [Store.readSelector, Store.own]

/-- Observable outcome of the common shape of a construction call: it is determined by the
visible properties of the receiver and by the `selector` of the object literal. -/
theorem Store.outcome_construct (s : Store) (this : Ref) (fragment : String) (order : Nat)
    (hthis : s.allocated this = true) :
    Store.outcome (Store.construct s this fragment order) =
      (cssSelectorBuilder.error (s.view this) order).bind fun _ =>
        Except.ok { selector := jsToString s.facade.selector ++
                      ((s.view this).selector ++ fragment),
                    order := some order } := by
  rw [Store.construct_eq s this fragment order hthis]
  cases he : cssSelectorBuilder.error (s.view this) order with
  | error e => rfl
  | ok u =>
    simp [Store.outcome, Except.map, Except.bind, Store.view, Store.readSelector,
      Store.readOrder, Store.own, jsToString]

/-- The methods on the store agree with the methods on visible properties: when the object
literal is as written in the source, the observable outcome of a construction call on the
store is the outcome of the same call on the visible properties of the receiver. -/
theorem Store.outcome_call (k : Category) (s : Store) (this : Ref) (v : String)
    (hthis : s.allocated this = true) (hfacade : s.facade = Store.initial.facade) :
    Store.outcome (Store.call k s this v) = k.call (s.view this) v := by
  rw [Store.call_eq_construct, Store.outcome_construct s this _ _ hthis, call_result_eq, hfacade]
  simp [Store.initial, jsToString]

/-- The store and the reference returned by `combine` on the store, computed. -/
theorem Store.combine_eq (s : Store) (a b : Ref) (op : String)
    (ha : s.allocated a = true) (hb : s.allocated b = true) :
    Store.combine s a op b =
      ({ facade := s.facade,
         created := s.created ++
           [{ selector := some (jsToString s.facade.selector ++
                (jsToString (s.readSelector a) ++ " " ++ op ++ " " ++
                  jsToString (s.readSelector b))),
              order := none }] },
        Ref.created s.created.length) := by
  have hrs : ∀ (o : JSObject) (x : Ref), s.allocated x = true →
      Store.readSelector { facade := s.facade, created := s.created ++ [o] } x
        = s.readSelector x := by
    intro o x hx
    simp only [Store.readSelector, Store.own_append s o x hx]
  simp only [Store.combine, Store.objectCreate, Store.writeSelector, Store.stringify,
    List.getElem?_concat_length, set_length_append_singleton, hrs _ a ha, hrs _ b hb]
  simp [Store.readSelector, Store.own]

/-! ## Receivers and operands are left unchanged -/

/-- C7: for every store and every object `r` in it (the object literal included), a
construction call on `r`, whether it returns or throws, and a `combine` call with `r` as an
operand leave the own properties of `r`, and of every other existing object `x`, unchanged;
hence `r.stringify()` and the visible `selector` and `order` of `r` are the same afterwards,
and a later construction call on `r` has the same observable outcome as if the earlier call
had not been made. -/
theorem C7_receiver_unchanged (s : Store) (r x : Ref) (k k2 : Category) (v w op : String)
    (hr : s.allocated r = true) (hx : s.allocated x = true) :
    (Store.call k s r v).1.own r = s.own r ∧
    (Store.call k s r v).1.own x = s.own x ∧
    (Store.combine s r op x).1.own r = s.own r ∧
    (Store.combine s x op r).1.own r = s.own r ∧
    (Store.combine s r op x).1.own x = s.own x ∧
    (Store.call k s r v).1.stringify r = s.stringify r ∧
    (Store.call k s r v).1.view r = s.view r ∧
    (Store.combine s r op x).1.view r = s.view r ∧
    Store.outcome (Store.call k2 (Store.call k s r v).1 r w)
      = Store.outcome (Store.call k2 s r w) := by
  have hcall : ∀ y : Ref, s.allocated y = true → (Store.call k s r v).1.own y = s.own y := by
    intro y hy
    rw [Store.call_eq_construct, Store.construct_eq s r _ _ hr]
    exact Store.own_append s _ y hy
  have hcomb : ∀ a b y : Ref, s.allocated a = true → s.allocated b = true →
      s.allocated y = true → (Store.combine s a op b).1.own y = s.own y := by
    intro a b y ha hb hy
    rw [Store.combine_eq s a b op ha hb]
    exact Store.own_append s _ y hy
  have hview : ∀ t : Store, t.own r = s.own r → t.own Ref.facade = s.own Ref.facade →
      t.view r = s.view r ∧ t.stringify r = s.stringify r := by
    intro t h1 h2
    have hf : t.facade = s.facade := by
      simpa [Store.own] using h2
    simp [Store.view, Store.stringify, Store.readSelector, Store.readOrder, h1, hf]
  have hfac : s.allocated Ref.facade = true := rfl
  have h1 := hview _ (hcall r hr) (hcall Ref.facade hfac)
  have h2 := hview _ (hcomb r x r hr hx hr) (hcomb r x Ref.facade hr hx hfac)
  refine ⟨hcall r hr, hcall x hx, hcomb r x r hr hx hr, hcomb x r r hx hr hr,
    hcomb r x x hr hx hx, h1.2, h1.1, h2.1, ?_⟩
  have halloc : (Store.call k s r v).1.allocated r = true := by
    simp only [Store.allocated, hcall r hr]
    exact hr
  have hf : (Store.call k s r v).1.facade = s.facade := by
    simpa [Store.own] using hcall Ref.facade hfac
  rw [Store.call_eq_construct k2, Store.call_eq_construct k2,
    Store.outcome_construct _ r _ _ halloc, Store.outcome_construct s r _ _ hr, h1.1, hf]

/-- Instance of C7 at the store left by `element('div')` on the factory: a second
`element('span')` on the result throws, the result keeps its properties, and `id('main')`
called on it afterwards gives `div#main` as it does without the failed call. -/
theorem C7_receiver_unchanged_witness :
    Store.allocated
        { facade := { selector := some "", order := none },
          created := [{ selector := some "div", order := some 1 }] } (Ref.created 0) = true ∧
    (Store.call .Element
        { facade := { selector := some "", order := none },
          created := [{ selector := some "div", order := some 1 }] }
        (Ref.created 0) "span").2 = Except.error DuplicateSingletonPart ∧
    (Store.call .Element
        { facade := { selector := some "", order := none },
          created := [{ selector := some "div", order := some 1 }] }
        (Ref.created 0) "span").1.own (Ref.created 0)
      = some { selector := some "div", order := some 1 } ∧
    Store.outcome (Store.call .Id
        (Store.call .Element
          { facade := { selector := some "", order := none },
            created := [{ selector := some "div", order := some 1 }] }
          (Ref.created 0) "span").1 (Ref.created 0) "main")
      = Store.outcome (Store.call .Id
          { facade := { selector := some "", order := none },
            created := [{ selector := some "div", order := some 1 }] }
          (Ref.created 0) "main") ∧
    Store.outcome (Store.call .Id
        { facade := { selector := some "", order := none },
          created := [{ selector := some "div", order := some 1 }] }
        (Ref.created 0) "main")
      = Except.ok { selector := "div#main", order := some 2 } :=
  have h := C7_receiver_unchanged
    { facade := { selector := some "", order := none },
      created := [{ selector := some "div", order := some 1 }] }
    (Ref.created 0) Ref.facade .Element .Id "span" "main" "+" (by decide) (by decide)
  ⟨by decide, by decide, h.1, h.2.2.2.2.2.2.2.2, by decide⟩

/-! ## Values are passed through unvalidated -/

/-- Outcome kind of a construction call: success, or the message of the thrown error. -/
theorem call_kind (k : Category) (r : Builder) (v : String) :
    (k.call r v).map (fun _ => ()) = cssSelectorBuilder.error r k.ordinal := by
  rw [call_result_eq]
  cases cssSelectorBuilder.error r k.ordinal <;> rfl

/-- The checks of `error` read only the `order` of the receiver. -/
theorem error_congr_order (s1 s2 : String) (c : Option Nat) (n : Nat) :
    cssSelectorBuilder.error { selector := s1, order := c } n
      = cssSelectorBuilder.error { selector := s2, order := c } n := by
  simp [cssSelectorBuilder.error]

/-- C11: for every category, every two receivers with the same `order` (whatever their texts)
and every two values, the construction call succeeds for both or throws the same error for
both: the outcome kind is the result of `error` on the `order` and the ordinal alone. -/
theorem C11_values_not_validated (k : Category) (c : Option Nat) (s1 s2 v w : String) :
    (k.call { selector := s1, order := c } v).map (fun _ => ())
      = (k.call { selector := s2, order := c } w).map (fun _ => ()) ∧
    ((∃ b, k.call { selector := s1, order := c } v = Except.ok b) ↔
      ∃ b, k.call { selector := s2, order := c } w = Except.ok b) ∧
    (∀ e, k.call { selector := s1, order := c } v = Except.error e ↔
      k.call { selector := s2, order := c } w = Except.error e) ∧
    (k.call { selector := s1, order := c } v).map (fun _ => ())
      = cssSelectorBuilder.error { selector := "", order := c } k.ordinal := by
  have hkind : (k.call { selector := s1, order := c } v).map (fun _ => ())
      = (k.call { selector := s2, order := c } w).map (fun _ => ()) := by
    rw [call_kind, call_kind, error_congr_order s1 s2]
  refine ⟨hkind, ?_, ?_, ?_⟩
  · cases h1 : k.call { selector := s1, order := c } v <;>
      cases h2 : k.call { selector := s2, order := c } w <;>
      simp [h1, h2, Except.map] at hkind ⊢
  · intro e
    cases h1 : k.call { selector := s1, order := c } v <;>
      cases h2 : k.call { selector := s2, order := c } w <;>
      simp [h1, h2, Except.map] at hkind ⊢
    rw [hkind]
  · rw [call_kind, error_congr_order s1 ""]

/-! ## Rendering -/

/-- C12: for every builder `stringify()` returns the `selector` of the builder (it has no
throwing path); any number of repeated calls on the same builder return that same text; on the
factory it returns the empty string, also when the factory is read as an object of the
initial store. -/
theorem C12_stringify_returns_selector (b : Builder) (n : Nat) (s : Store) (r : Ref) :
    cssSelectorBuilder.stringify b = b.selector ∧
    (List.replicate n b).map cssSelectorBuilder.stringify = List.replicate n b.selector ∧
    cssSelectorBuilder.stringify cssSelectorBuilder = "" ∧
    Store.stringify Store.initial Ref.facade = some "" ∧
    Store.stringify s r = s.readSelector r ∧
    jsToString (Store.stringify s r) = (s.view r).selector := by
  refine ⟨rfl, ?_, rfl, rfl, rfl, rfl⟩
  simp [cssSelectorBuilder.stringify]

/-- C16: nested `combine` joins the texts flatly, whichever way it is nested: both nestings
render the first text, the first combinator between single spaces, the second text, the second
combinator between single spaces, and the third text; the documented nested call renders
`div#main.container.draggable + table#data ~ tr:nth-of-type(even)   td:nth-of-type(even)`. -/
theorem C16_nested_combine_flat (a b c : Builder) (o1 o2 : String) :
    cssSelectorBuilder.stringify
        (cssSelectorBuilder.combine a o1 (cssSelectorBuilder.combine b o2 c))
      = cssSelectorBuilder.stringify a ++ " " ++ o1 ++ " " ++ cssSelectorBuilder.stringify b
          ++ " " ++ o2 ++ " " ++ cssSelectorBuilder.stringify c ∧
    cssSelectorBuilder.stringify
        (cssSelectorBuilder.combine (cssSelectorBuilder.combine a o1 b) o2 c)
      = cssSelectorBuilder.stringify a ++ " " ++ o1 ++ " " ++ cssSelectorBuilder.stringify b
          ++ " " ++ o2 ++ " " ++ cssSelectorBuilder.stringify c ∧
    cssSelectorBuilder.stringify
        (cssSelectorBuilder.combine a o1 (cssSelectorBuilder.combine b o2 c))
      = cssSelectorBuilder.stringify
          (cssSelectorBuilder.combine (cssSelectorBuilder.combine a o1 b) o2 c) ∧
    ((applyCalls cssSelectorBuilder
        [(.Element, "div"), (.Id, "main"), (.Class, "container"), (.Class, "draggable")]).bind
      fun x1 =>
      (applyCalls cssSelectorBuilder [(.Element, "table"), (.Id, "data")]).bind fun x2 =>
      (applyCalls cssSelectorBuilder
        [(.Element, "tr"), (.PseudoClass, "nth-of-type(even)")]).bind fun x3 =>
      (applyCalls cssSelectorBuilder
        [(.Element, "td"), (.PseudoClass, "nth-of-type(even)")]).bind fun x4 =>
        Except.ok (cssSelectorBuilder.stringify
          (cssSelectorBuilder.combine x1 "+"
            (cssSelectorBuilder.combine x2 "~" (cssSelectorBuilder.combine x3 " " x4)))))
      = Except.ok
          "div#main.container.draggable + table#data ~ tr:nth-of-type(even)   td:nth-of-type(even)" := by
  have h1 : cssSelectorBuilder.stringify
        (cssSelectorBuilder.combine a o1 (cssSelectorBuilder.combine b o2 c))
      = cssSelectorBuilder.stringify a ++ " " ++ o1 ++ " " ++ cssSelectorBuilder.stringify b
          ++ " " ++ o2 ++ " " ++ cssSelectorBuilder.stringify c := by
    simp [cssSelectorBuilder.combine, cssSelectorBuilder.stringify, cssSelectorBuilder,
      String.append_assoc]
  have h2 : cssSelectorBuilder.stringify
        (cssSelectorBuilder.combine (cssSelectorBuilder.combine a o1 b) o2 c)
      = cssSelectorBuilder.stringify a ++ " " ++ o1 ++ " " ++ cssSelectorBuilder.stringify b
          ++ " " ++ o2 ++ " " ++ cssSelectorBuilder.stringify c := by
    simp [cssSelectorBuilder.combine, cssSelectorBuilder.stringify, cssSelectorBuilder,
      String.append_assoc]
  exact ⟨h1, h2, h1.trans h2.symm, by decide⟩

/-! ## Order of the two checks -/

/-- C17: the two failure conditions of `error` exclude each other, and the validator that
runs the ordering check first and the duplicate-singleton check second returns, for every
receiver and every ordinal, the same outcome as the implemented `error`. -/
theorem C17_check_order_irrelevant (this : Builder) (order : Nat) :
    errorOrderCheckFirst this order = cssSelectorBuilder.error this order ∧
    ¬ (jsLt order this.order = true ∧
        (jsStrictEq order this.order && jsIndexOf [1, 2, 6] order != -1) = true) := by
  have hexcl : ¬ (jsLt order this.order = true ∧ jsStrictEq order this.order = true) := by
    cases hc : this.order with
    | none => simp [jsLt]
    | some c =>
      simp only [jsLt, jsStrictEq, decide_eq_true_eq, beq_iff_eq]
      omega
  refine ⟨?_, fun h => hexcl ⟨h.1, ?_⟩⟩
  · unfold errorOrderCheckFirst cssSelectorBuilder.error
    by_cases h1 : jsLt order this.order = true
    · have h2 : jsStrictEq order this.order = false := by
        cases hs : jsStrictEq order this.order
        · rfl
        · exact absurd ⟨h1, hs⟩ hexcl
      simp [h1, h2]
    · simp [h1]
  · have := h.2
    simp only [Bool.and_eq_true] at this
    exact this.1

/-! ## Promise tasks: `willYouMarryMe` -/

/-- C13: `willYouMarryMe(x)` is fulfilled with `Hooray!!! She said "Yes"!` when `x` is `true`,
fulfilled with `Oh no, she said "No".` when `x` is `false`, and it is rejected, with an error
whose message is `Wrong parameter is passed! Ask her again.`, exactly when `x` is not a
boolean, as for `undefined` (a missing argument). -/
theorem C13_willYouMarryMe_settles (x : JSValue) :
    willYouMarryMe (.boolean true) = .fulfilled (.string "Hooray!!! She said \"Yes\"!") ∧
    willYouMarryMe (.boolean false) = .fulfilled (.string "Oh no, she said \"No\".") ∧
    (willYouMarryMe x = .rejected (.error "Wrong parameter is passed! Ask her again.") ↔
      ¬ ∃ b, x = .boolean b) ∧
    ((∃ reason, willYouMarryMe x = .rejected reason) ↔ ¬ ∃ b, x = .boolean b) ∧
    willYouMarryMe .undefined
      = .rejected (.error "Wrong parameter is passed! Ask her again.") := by
  refine ⟨by decide, by decide, ?_, ?_, by decide⟩
  · cases x with
    | boolean b => cases b <;> simp [willYouMarryMe, JSValue.strictEq, PromiseState.resolve]
    | _ => simp [willYouMarryMe, JSValue.strictEq, PromiseState.reject]
  · cases x with
    | boolean b => cases b <;> simp [willYouMarryMe, JSValue.strictEq, PromiseState.resolve]
    | _ => simp [willYouMarryMe, JSValue.strictEq, PromiseState.reject]

/-! ## Promise tasks: `myPromiseAll` and `chainPromises` -/

/-- Length of an array after the assignment `results[index] = val`. -/
theorem jsArraySet_length {V : Type} (xs : List (Option V)) (i : Nat) (v : V) :
    (jsArraySet xs i v).length = max xs.length (i + 1) := by
  unfold jsArraySet
  split_ifs with h
  · rw [List.length_set]
    omega
  · simp only [List.length_append, List.length_replicate, List.length_singleton]
    omega

/-- Elements of an array after the assignment `results[index] = val`. -/
theorem jsArraySet_getElem? {V : Type} (xs : List (Option V)) (i j : Nat) (v : V) :
    ((jsArraySet xs i v)[j]?).getD none = if j = i then some v else (xs[j]?).getD none := by
  unfold jsArraySet
  split_ifs with h hji hji
  · subst hji
    rw [List.getElem?_set_self h]
    rfl
  · rw [List.getElem?_set_ne (fun he => hji he.symm)]
  · subst hji
    have hlen : (xs ++ List.replicate (j - xs.length) none).length = j := by
      simp only [List.length_append, List.length_replicate]
      omega
    have := List.getElem?_concat_length (xs ++ List.replicate (j - xs.length) none) (some v)
    rw [hlen] at this
    rw [this]
    rfl
  · by_cases hj : j < xs.length
    · rw [List.append_assoc, List.getElem?_append_left hj]
    · have hnone : xs[j]? = none := List.getElem?_eq_none (Nat.not_lt.mp hj)
      rw [hnone, List.append_assoc, List.getElem?_append_right (Nat.not_lt.mp hj)]
      by_cases hj2 : j - xs.length < i - xs.length
      · rw [List.getElem?_append_left (by simpa using hj2), List.getElem?_replicate]
        simp [hj2]
      · rw [List.getElem?_append_right (by simpa using hj2)]
        have hge : [some v].length ≤
            j - xs.length - (List.replicate (i - xs.length) (none : Option V)).length := by
          simp only [List.length_replicate, List.length_singleton]
          omega
        rw [List.getElem?_eq_none hge]

/-- One `then` callback of `myPromiseAll` on an array of fulfilled promises: it stores the
value at its index, counts it, and resolves the returned promise with `results` when the
count reaches the length of the array. `P` lists the indices whose callbacks ran before. -/
theorem myPromiseAll_react_fulfilled {V : Type} (vs : List V) (st : MyPromiseAllState V)
    (P : List Nat) (i : Nat)
    (hcount : st.promisesCompleted = P.length)
    (hlen : st.results.length ≤ vs.length)
    (hres : ∀ j, (st.results[j]?).getD none = if j ∈ P then vs[j]? else none)
    (hpend : st.promise = PromiseState.pending)
    (hi : i < vs.length) :
    (myPromiseAll.react (vs.map PromiseState.fulfilled) st i).promisesCompleted
      = (i :: P).length ∧
    (myPromiseAll.react (vs.map PromiseState.fulfilled) st i).results.length ≤ vs.length ∧
    (∀ j, ((myPromiseAll.react (vs.map PromiseState.fulfilled) st i).results[j]?).getD none
      = if j ∈ i :: P then vs[j]? else none) ∧
    (myPromiseAll.react (vs.map PromiseState.fulfilled) st i).promise
      = if (i :: P).length = vs.length then
          PromiseState.fulfilled
            (myPromiseAll.react (vs.map PromiseState.fulfilled) st i).results
        else PromiseState.pending := by
  have hget : (vs.map (PromiseState.fulfilled (ε := V)))[i]?
      = some (PromiseState.fulfilled (vs[i])) := by
    rw [List.getElem?_map, List.getElem?_eq_getElem hi]
    rfl
  simp only [myPromiseAll.react, hget, List.length_map, List.length_cons, hcount, hpend]
  refine ⟨trivial, ?_, ?_, ?_⟩
  · rw [jsArraySet_length]
    omega
  · intro j
    rw [jsArraySet_getElem?, hres j]
    by_cases hji : j = i
    · subst hji
      simp [List.getElem?_eq_getElem hi]
    · simp [hji]
  · split_ifs <;> rfl

/-- Callbacks of `myPromiseAll` on an array of fulfilled promises, run for a list of indices:
every value is stored at its index, and the returned promise is resolved with `results`
exactly when the count reaches the length of the array. -/
theorem myPromiseAll_foldl_fulfilled {V : Type} (vs : List V) :
    ∀ (sched : List Nat) (st : MyPromiseAllState V) (P : List Nat),
      st.promisesCompleted = P.length →
      st.results.length ≤ vs.length →
      (∀ j, (st.results[j]?).getD none = if j ∈ P then vs[j]? else none) →
      st.promise = PromiseState.pending →
      (∀ i ∈ sched, i < vs.length) →
      P.length + sched.length ≤ vs.length →
      (sched.foldl (myPromiseAll.react (vs.map PromiseState.fulfilled)) st).results.length
        ≤ vs.length ∧
      (∀ j, ((sched.foldl (myPromiseAll.react (vs.map PromiseState.fulfilled)) st).results[j]?
          ).getD none = if j ∈ P ∨ j ∈ sched then vs[j]? else none) ∧
      (sched.foldl (myPromiseAll.react (vs.map PromiseState.fulfilled)) st).promise
        = if P.length + sched.length = vs.length ∧ sched ≠ [] then
            PromiseState.fulfilled
              (sched.foldl (myPromiseAll.react (vs.map PromiseState.fulfilled)) st).results
          else PromiseState.pending := by
  intro sched
  induction sched with
  | nil =>
    intro st P _ hlen hres hpend _ _
    refine ⟨hlen, ?_, ?_⟩
    · intro j
      simpa using hres j
    · simpa using hpend
  | cons i rest ih =>
    intro st P hcount hlen hres hpend hbound hsize
    have hi : i < vs.length := hbound i (List.mem_cons_self _ _)
    obtain ⟨h1, h2, h3, h4⟩ :=
      myPromiseAll_react_fulfilled vs st P i hcount hlen hres hpend hi
    simp only [List.length_cons] at hsize h4
    rw [List.foldl_cons]
    cases rest with
    | nil =>
      refine ⟨h2, ?_, ?_⟩
      · intro j
        rw [List.foldl_nil, h3 j]
        simp [or_comm]
      · rw [List.foldl_nil, h4]
        simp
    | cons i2 rest2 =>
      simp only [List.length_cons] at hsize
      have hpend1 : (myPromiseAll.react (vs.map PromiseState.fulfilled) st i).promise
          = PromiseState.pending := by
        rw [h4, if_neg]
        omega
      obtain ⟨g1, g2, g3⟩ := ih _ (i :: P) h1 h2 h3 hpend1
        (fun x hx => hbound x (List.mem_cons_of_mem _ hx))
        (by simp only [List.length_cons]; omega)
      refine ⟨g1, ?_, ?_⟩
      · intro j
        rw [g2 j]
        have hiff : (j ∈ i :: P ∨ j ∈ i2 :: rest2) ↔ (j ∈ P ∨ j ∈ i :: i2 :: rest2) := by
          simp only [List.mem_cons]
          tauto
        simp only [hiff]
      · rw [g3]
        have hiff : ((i :: P).length + (i2 :: rest2).length = vs.length ∧ i2 :: rest2 ≠ [])
            ↔ (P.length + (i :: i2 :: rest2).length = vs.length ∧ i :: i2 :: rest2 ≠ []) := by
          simp only [List.length_cons, ne_eq, reduceCtorEq, not_false_eq_true, and_true]
          omega
        simp only [hiff]

/-- An array all of whose indices hold the values of a list, in order, is that list. -/
theorem results_eq_map_some {V : Type} (vs : List V) (results : List (Option V))
    (hlen : results.length ≤ vs.length)
    (hres : ∀ j : Nat, (results[j]?).getD none = vs[j]?) :
    results = vs.map some := by
  apply List.ext_getElem?
  intro j
  rw [List.getElem?_map]
  by_cases hj : j < vs.length
  · have h := hres j
    rw [List.getElem?_eq_getElem hj] at h ⊢
    cases hr : results[j]? with
    | none => rw [hr] at h; cases h
    | some x =>
      rw [hr] at h
      simp only [Option.getD_some] at h
      rw [h]
      rfl
  · rw [List.getElem?_eq_none (Nat.not_lt.mp hj),
      List.getElem?_eq_none (le_trans hlen (Nat.not_lt.mp hj))]
    rfl

/-- C14: for every non-empty array of promises that are all fulfilled, with values `v0` and
`rest` in array order, every action, and every order in which the callbacks of the promises
run, `chainPromises` is fulfilled with the left fold of the action over the values in array
order; for a one-element array this is `v0`. -/
theorem C14_chainPromises_folds {V : Type} (v0 : V) (rest : List V) (action : V → V → V)
    (schedule : List Nat) (hperm : schedule.Perm (List.range (rest.length + 1))) :
    chainPromises ((v0 :: rest).map PromiseState.fulfilled) action schedule
      = PromiseState.fulfilled (rest.foldl action v0) ∧
    chainPromises ([v0].map PromiseState.fulfilled) action [0] = PromiseState.fulfilled v0 := by
  have main : ∀ (r : List V) (sched : List Nat), sched.Perm (List.range (r.length + 1)) →
      chainPromises ((v0 :: r).map PromiseState.fulfilled) action sched
        = PromiseState.fulfilled (r.foldl action v0) := by
    intro r sched hp
    have hmem : ∀ j, j ∈ sched ↔ j < (v0 :: r).length := by
      intro j
      rw [hp.mem_iff, List.mem_range, List.length_cons]
    have hlength : sched.length = (v0 :: r).length := by
      rw [hp.length_eq, List.length_range, List.length_cons]
    have hne : sched ≠ [] := by
      intro he
      rw [he] at hlength
      simp at hlength
    obtain ⟨g1, g2, g3⟩ := myPromiseAll_foldl_fulfilled (v0 :: r) sched
      { results := [], promisesCompleted := 0, promise := PromiseState.pending } []
      rfl (Nat.zero_le _) (fun j => by simp) rfl (fun i hi => (hmem i).mp hi)
      (by rw [hlength]; simp)
    have hfull : ([] : List Nat).length + sched.length = (v0 :: r).length ∧ sched ≠ [] :=
      ⟨by rw [hlength]; simp, hne⟩
    rw [if_pos hfull] at g3
    have hresults := results_eq_map_some (v0 :: r) _ g1 (fun j => by
      rw [g2 j]
      by_cases hj : j < (v0 :: r).length
      · simp [(hmem j).mpr hj]
      · have : j ∉ sched := fun h => hj ((hmem j).mp h)
        simp only [List.not_mem_nil, false_or, this, if_false]
        exact (List.getElem?_eq_none (Nat.not_lt.mp hj)).symm)
    unfold chainPromises myPromiseAll
    rw [g3, hresults]
    simp [jsReduce, List.reduceOption]
  exact ⟨main rest schedule hperm, main [] [0] (List.Perm.refl [0])⟩

/-- Instance of C14 at promises fulfilled with 1, 2, 3, the action `(a, b) => a + b`, and
the callbacks run in the order third, first, second: the result is 6. -/
theorem C14_chainPromises_folds_witness :
    [2, 0, 1].Perm (List.range (([2, 3] : List Int).length + 1)) ∧
    chainPromises (([1, 2, 3] : List Int).map PromiseState.fulfilled) (fun a b => a + b)
      [2, 0, 1] = PromiseState.fulfilled 6 :=
  ⟨by decide,
    (C14_chainPromises_folds (1 : Int) [2, 3] (fun a b => a + b) [2, 0, 1] (by decide)).1⟩

/-- C15 (evaluation of the code at a failing input): for the array of promises fulfilled with
1, rejected with the error `Danger!`, and fulfilled with 3, every action and every order of
the callbacks, `chainPromises` is fulfilled with the error itself; it is not fulfilled with
the fold of the action over the two fulfilled values, which is 4 for the addition of
numbers. -/
theorem C15_rejection_returned_as_value (action : JSValue → JSValue → JSValue) :
    (∀ schedule ∈ [[0, 1, 2], [0, 2, 1], [1, 0, 2], [1, 2, 0], [2, 0, 1], [2, 1, 0]],
      chainPromises
          [PromiseState.fulfilled (JSValue.number 1),
            PromiseState.rejected (JSValue.error "Danger!"),
            PromiseState.fulfilled (JSValue.number 3)] action schedule
        = PromiseState.fulfilled (JSValue.error "Danger!")) ∧
    chainPromises
        [PromiseState.fulfilled (JSValue.number 1),
          PromiseState.rejected (JSValue.error "Danger!"),
          PromiseState.fulfilled (JSValue.number 3)]
        (fun a b =>
          match a, b with
          | JSValue.number m, JSValue.number n => JSValue.number (m + n)
          | _, _ => JSValue.undefined)
        [0, 1, 2]
      ≠ PromiseState.fulfilled (JSValue.number 4) ∧
    (myPromiseAll
        [PromiseState.fulfilled (JSValue.number 1),
          PromiseState.rejected (JSValue.error "Danger!"),
          PromiseState.fulfilled (JSValue.number 3)] [0, 1, 2]).promise
      = PromiseState.rejected (JSValue.error "Danger!") := by
  refine ⟨?_, ?_, rfl⟩
  · intro schedule hs
    simp only [List.mem_cons, List.mem_singleton, List.not_mem_nil, or_false] at hs
    rcases hs with rfl | rfl | rfl | rfl | rfl | rfl <;> rfl
  · intro h
    cases h
